import Mathlib

/-!
Verification of the user-identity management fragment of the NetBox
repository (users app: login/logout views, API token self-service views,
object-permission model, bulk-edit forms).

Definitions are shallow embeddings of the Python code in
src/netbox/users/views.py and src/netbox/users/forms/bulk_edit.py.
Framework collaborators (Django helpers, the generic bulk-edit driver and
the permission resolver, which are not part of the provided sources) are
modelled from the specification, as marked in their doc comments.
-/

namespace Netbox

/-! ## Configuration surface -/

/-- Django settings consumed by the views in src/netbox/users/views.py:
LOGIN_REDIRECT_URL and LOGOUT_REDIRECT_URL, the ALLOW_TOKEN_RETRIEVAL
flag, and the resolved URL of the named route home (reverse home), the
default landing page. -/
structure Settings where
  LOGIN_REDIRECT_URL : String
  LOGOUT_REDIRECT_URL : String
  ALLOW_TOKEN_RETRIEVAL : Bool
  homeUrl : String
deriving Repr, DecidableEq

/-- Dynamic configuration read through get_config(): the maintenance-mode
flag and the default user-preference map. -/
structure Config where
  MAINTENANCE_MODE : Bool
  DEFAULT_USER_PREFERENCES : List (String × String)
deriving Repr, DecidableEq

/-! ## Safe-redirect check

The view calls the Django helper url_has_allowed_host_and_scheme with
allowed_hosts set to None, so the empty host allow-list is in force. -/

/-- Scheme detection: scans characters after a leading letter; a colon
terminates a scheme mark, any character outside the scheme alphabet
(letters, digits, plus, minus, dot) means no scheme is present. -/
def hasSchemeAux : List Char → Bool
  | [] => false
  | c :: rest =>
      if c == ':' then true
      else if c.isAlphanum || c == '+' || c == '-' || c == '.' then
        hasSchemeAux rest
      else false

/-- A character list is an absolute URL (one resolving to a host of its
own) when it is protocol-relative (leading double slash) or starts with a
scheme mark such as https:. -/
def isAbsoluteChars : List Char → Bool
  | [] => false
  | c :: rest =>
      if c == '/' then rest.head? == some '/'
      else c.isAlpha && hasSchemeAux rest

/-- A relative path in the sense of the spec examples: a single leading
slash not followed by another slash. -/
def isRelativeChars : List Char → Bool
  | [] => false
  | c :: rest => c == '/' && !(rest.head? == some '/')

/-- Safety of a nonempty target with the empty host allow-list: a leading
slash must not be doubled, and any other leading character must not open
a scheme mark. -/
def urlSafeChars : List Char → Bool
  | [] => false
  | c :: rest =>
      if c == '/' then !(rest.head? == some '/')
      else !(c.isAlpha && hasSchemeAux rest)

/-- A URL string is absolute when its characters are. -/
def isAbsoluteUrl (u : String) : Bool :=
  isAbsoluteChars u.data

/-- A URL string is a relative path when its characters are. -/
def isRelativePath (u : String) : Bool :=
  isRelativeChars u.data

/-- Modelled from the spec: the Django helper url_has_allowed_host_and_scheme
(framework code, not part of the provided sources), as the views invoke it
with allowed_hosts=None.  Per the spec, the target must resolve to one of
the allowed hosts or be a relative path; absolute URLs to other hosts are
rejected.  With the empty allow-list a target is accepted exactly when it
is nonempty and carries neither a host nor a scheme of its own. -/
def url_has_allowed_host_and_scheme (u : String) : Bool :=
  urlSafeChars u.data

/-! ## LoginView.redirect_to_next (src/netbox/users/views.py lines 119-130) -/

/-- Embedding of LoginView.redirect_to_next: the next entry of the request
data when present, else settings.LOGIN_REDIRECT_URL; kept when truthy and
accepted by the host/scheme check, replaced by reverse home otherwise. -/
def redirect_to_next (nxt : Option String) (s : Settings) : String :=
  let redirect_url := nxt.getD s.LOGIN_REDIRECT_URL
  if (redirect_url != "") && url_has_allowed_host_and_scheme redirect_url then
    redirect_url
  else
    s.homeUrl

/-- The responses a login/logout/token view can produce at the level this
development observes: a rendered template or an HTTP redirect. -/
inductive Response where
  | render (template : String)
  | redirect (url : String)
deriving Repr, DecidableEq

/-- Embedding of LoginView.get (src/netbox/users/views.py lines 73-83):
an already-authenticated requester is redirected through
redirect_to_next, an anonymous one gets the rendered login form. -/
def login_get (authenticated : Bool) (nxt : Option String) (s : Settings) : Response :=
  if authenticated then
    .redirect (redirect_to_next nxt s)
  else
    .render "login.html"

/-! ## LoginView.post (src/netbox/users/views.py lines 85-117) and
LogoutView.get (lines 138-151) -/

/-- The request-visible authentication state: per-user last-login
timestamp, per-user UserConfig preference map (None when the row is
absent), and the session identity. -/
structure AuthState where
  lastLogin : Nat → Option Nat
  userConfig : Nat → Option (List (String × String))
  sessionUser : Option Nat

/-- Embedding of LoginView.post for a submitted form.  The framework
collaborators auth_login and the user_logged_in signal handler
update_last_login are modelled from the spec (mark the session
authenticated, update the last-login timestamp); the view disconnects the
timestamp update under MAINTENANCE_MODE, ensures a UserConfig row exists
(seeding it from DEFAULT_USER_PREFERENCES), and redirects through
redirect_to_next.  An invalid form re-renders the login template. -/
def login_post (st : AuthState) (s : Settings) (cfg : Config)
    (formValid : Bool) (user : Nat) (now : Nat) (nxt : Option String) :
    AuthState × Response :=
  if formValid then
    let st1 : AuthState :=
      { st with
        sessionUser := some user
        lastLogin :=
          if cfg.MAINTENANCE_MODE then st.lastLogin
          else fun u => if u = user then some now else st.lastLogin u }
    let st2 : AuthState :=
      if (st1.userConfig user).isSome then st1
      else
        { st1 with
          userConfig := fun u =>
            if u = user then some cfg.DEFAULT_USER_PREFERENCES
            else st1.userConfig u }
    (st2, .redirect (redirect_to_next nxt s))
  else
    (st, .render "login.html")

/-- The observable outcome of the logout view: the redirect target and the
name of the cookie the response deletes. -/
structure LogoutResponse where
  redirectUrl : String
  deletedCookie : String
deriving Repr, DecidableEq

/-- Embedding of LogoutView.get (src/netbox/users/views.py lines 138-151):
auth_logout (modelled from the spec as invalidating the session) is
called unconditionally, the response redirects to
settings.LOGOUT_REDIRECT_URL and deletes the session_key cookie.  No
branch of the view can fail. -/
def logout_get (st : AuthState) (s : Settings) : AuthState × LogoutResponse :=
  ({ st with sessionUser := none },
   { redirectUrl := s.LOGOUT_REDIRECT_URL, deletedCookie := "session_key" })

/-! ## API token views (src/netbox/users/views.py lines 237-337) -/

/-- A Token row: primary key, owning user, secret key, and the remaining
editable fields the token form exposes. -/
structure Token where
  pk : Nat
  user : Nat
  key : String
  write_enabled : Bool
  description : String
deriving Repr, DecidableEq

/-- The token table. -/
structure TokenStore where
  tokens : List Token
deriving Repr, DecidableEq

/-- Modelled from the spec: the data a TokenForm submission carries (the
form class is not part of the provided sources).  The ownership field is
optional so the embedding can express an attacker-supplied owner. -/
structure TokenFormData where
  user : Option Nat
  write_enabled : Bool
  description : String
deriving Repr, DecidableEq

/-- Modelled from the spec: form.save(commit=False) applied to an
instance, writing each submitted field onto the row without persisting. -/
def applyTokenForm (t : Token) (d : TokenFormData) : Token :=
  { t with
    user := d.user.getD t.user
    write_enabled := d.write_enabled
    description := d.description }

/-- Embedding of Token.objects.filter(user=request.user).get(pk=pk), the
queryset behind get_object_or_404 in the token edit/delete views: the
stored token owned by the requester with the given primary key, if any. -/
def findUserToken (st : TokenStore) (user pk : Nat) : Option Token :=
  st.tokens.find? (fun t => t.user == user && t.pk == pk)

/-- Embedding of token.save(): update the row with the same primary key
when one exists, insert the row otherwise. -/
def saveToken (st : TokenStore) (t : Token) : TokenStore :=
  if st.tokens.any (fun x => x.pk == t.pk) then
    ⟨st.tokens.map (fun x => if x.pk == t.pk then t else x)⟩
  else
    ⟨st.tokens ++ [t]⟩

/-- The observable responses of the token views.  createdWithKey is the
users/api_token.html render that passes the plaintext key to the
template; per the spec no other template of these views receives the
plaintext secret. -/
inductive TokenResponse where
  | notFound
  | createdWithKey (key : String)
  | redirect (url : String)
  | editForm
  | confirmForm
  | listPage (rows : List Token)
deriving Repr, DecidableEq

/-- Embedding of TokenListView.get (src/netbox/users/views.py lines
237-249): the rendered rows are Token.objects.filter(user=request.user). -/
def token_list (st : TokenStore) (requester : Nat) : List Token :=
  st.tokens.filter (fun t => t.user == requester)

/-- The full list-view response: the users/api_tokens.html render over the
requester-scoped rows.  Per the spec that template displays only
non-secret token attributes, so the response carries no plaintext key at
the exposure level this development observes. -/
def token_list_view (st : TokenStore) (requester : Nat) : TokenResponse :=
  .listPage (token_list st requester)

/-- Embedding of TokenEditView.post (src/netbox/users/views.py lines
270-304).  With a pk the instance is fetched from the requester-scoped
queryset (404 when absent); without one a fresh token owned by the
requester is built, with newPk and newKey standing for the
database-assigned primary key and the generated secret.  On a valid form
the view forces token.user to the requester before saving; a fresh token
saved while ALLOW_TOKEN_RETRIEVAL is off is answered with the
users/api_token.html render carrying the plaintext key, otherwise the
view redirects (to the same path under addanother, to the token list
else).  An invalid form re-renders the edit template. -/
def token_edit_post (st : TokenStore) (requester : Nat) (pk? : Option Nat)
    (d : TokenFormData) (formValid : Bool) (newKey : String) (newPk : Nat)
    (addanother : Bool) (s : Settings) : TokenStore × TokenResponse :=
  match pk? with
  | some pk =>
    match findUserToken st requester pk with
    | none => (st, .notFound)
    | some token =>
      if formValid then
        let token1 := { applyTokenForm token d with user := requester }
        let st1 := saveToken st token1
        if addanother then (st1, .redirect "users:token_edit")
        else (st1, .redirect "users:token_list")
      else (st, .editForm)
  | none =>
    let token0 : Token :=
      { pk := newPk, user := requester, key := newKey
        write_enabled := false, description := "" }
    if formValid then
      let token1 := { applyTokenForm token0 d with user := requester }
      let st1 := saveToken st token1
      if !s.ALLOW_TOKEN_RETRIEVAL then (st1, .createdWithKey token1.key)
      else if addanother then (st1, .redirect "users:token_edit")
      else (st1, .redirect "users:token_list")
    else (st, .editForm)

/-- Embedding of TokenEditView.get (src/netbox/users/views.py lines
255-268): with a pk the instance comes from the requester-scoped queryset
(404 when absent) and the edit form is rendered; no branch passes the
plaintext key. -/
def token_edit_get (st : TokenStore) (requester : Nat) (pk? : Option Nat) :
    TokenResponse :=
  match pk? with
  | some pk =>
    match findUserToken st requester pk with
    | none => .notFound
    | some _ => .editForm
  | none => .editForm

/-- Embedding of TokenDeleteView (src/netbox/users/views.py lines
307-337): both handlers fetch from the requester-scoped queryset (404
when absent); a valid confirmation deletes the row and redirects, an
invalid one re-renders the confirmation template. -/
def token_delete_post (st : TokenStore) (requester pk : Nat)
    (confirmValid : Bool) : TokenStore × TokenResponse :=
  match findUserToken st requester pk with
  | none => (st, .notFound)
  | some token =>
    if confirmValid then
      (⟨st.tokens.filter (fun x => !(x.pk == token.pk))⟩,
       .redirect "users:token_list")
    else (st, .confirmForm)

/-- Embedding of TokenDeleteView.get (src/netbox/users/views.py lines
310-322): requester-scoped fetch, then the confirmation form. -/
def token_delete_get (st : TokenStore) (requester pk : Nat) : TokenResponse :=
  match findUserToken st requester pk with
  | none => .notFound
  | some _ => .confirmForm

/-- The plaintext secret a token response exposes, if any: only the
users/api_token.html render carries one. -/
def exposedKey : TokenResponse → Option String
  | .createdWithKey k => some k
  | _ => none

/-! ## Permission Resolver

The resolver itself is not part of the provided sources (only its
callers are), so the definitions below are modelled from section 4.1 of
the specification. -/

/-- A principal: a user id, its group memberships, and the superuser
flag. -/
structure Principal where
  id : Nat
  groups : List Nat
  is_superuser : Bool
deriving Repr, DecidableEq

/-- Modelled from the spec: an ObjectPermission row — enabled flag,
assigned users and groups, granted actions, target object types, and an
optional constraint narrowing the admitted instances (None admits every
instance of the type). -/
structure ObjectPermission where
  enabled : Bool
  users : List Nat
  groups : List Nat
  actions : List String
  object_types : List String
  constraint : Option (Nat → Bool)

/-- Modelled from the spec: a permission row applies to a principal when
its principal set intersects the principal together with its groups. -/
def matchesPrincipal (perm : ObjectPermission) (p : Principal) : Bool :=
  perm.users.contains p.id || perm.groups.any (fun g => p.groups.contains g)

/-- Modelled from the spec: the enabled ObjectPermission rows whose
principal set intersects the principal and its groups, whose action set
contains the action, and whose object-type set contains the type. -/
def matchingPermissions (perms : List ObjectPermission) (p : Principal)
    (action objType : String) : List ObjectPermission :=
  perms.filter (fun perm =>
    perm.enabled && matchesPrincipal perm p &&
    perm.actions.contains action && perm.object_types.contains objType)

/-- Modelled from the spec: whether an instance satisfies a constraint; a
missing constraint admits every instance of the type. -/
def constraintAdmits (c : Option (Nat → Bool)) (inst : Nat) : Bool :=
  match c with
  | none => true
  | some f => f inst

/-- Modelled from the spec: is_allowed at the type level — superusers
short-circuit to allow, an empty match set denies, any match allows. -/
def is_allowed (perms : List ObjectPermission) (p : Principal)
    (action objType : String) : Bool :=
  if p.is_superuser then true
  else !(matchingPermissions perms p action objType).isEmpty

/-- Modelled from the spec: the restrict predicate for list filtering —
the union (OR) of the matching permissions constraints; superusers are
unrestricted. -/
def restrict (perms : List ObjectPermission) (p : Principal)
    (action objType : String) : Nat → Bool :=
  fun inst =>
    if p.is_superuser then true
    else (matchingPermissions perms p action objType).any
      (fun perm => constraintAdmits perm.constraint inst)

/-! ## Bulk-edit layer (src/netbox/users/forms/bulk_edit.py)

The field structure below embeds UserBulkEditForm; the generic
BulkEditView driver that applies a validated form is not part of the
provided sources and is modelled from sections 4.4 and 6 of the
specification. -/

/-- A NetBoxUser row restricted to the fields UserBulkEditForm exposes
(src/netbox/users/forms/bulk_edit.py lines 17-51), plus the primary
key carried by the pk field of the form. -/
structure UserRow where
  pk : Nat
  first_name : String
  last_name : String
  is_active : Bool
  is_staff : Bool
  is_superuser : Bool
deriving Repr, DecidableEq

/-- A validated UserBulkEditForm submission: the sparse field-update map
over the form fields.  nullable_fields is the empty tuple in the source,
so no null-out set exists for this form. -/
structure UserBulkChanges where
  first_name : Option String
  last_name : Option String
  is_active : Option Bool
  is_staff : Option Bool
  is_superuser : Option Bool
deriving Repr, DecidableEq

/-- Application of a sparse update map to one row: each submitted field
overwrites the row, absent fields are left as stored. -/
def applyUserChanges (r : UserRow) (c : UserBulkChanges) : UserRow :=
  { r with
    first_name := c.first_name.getD r.first_name
    last_name := c.last_name.getD r.last_name
    is_active := c.is_active.getD r.is_active
    is_staff := c.is_staff.getD r.is_staff
    is_superuser := c.is_superuser.getD r.is_superuser }

/-- Modelled from the spec: the generic bulk-edit driver — the update is
applied only to rows that are both selected (the pk set of the form) and
admitted by the restrict predicate of the acting principal for the
modify action; every other row is untouched, and the reported
rows-affected count is the number of admitted rows. -/
def bulk_edit_users (rows : List UserRow) (selected : List Nat)
    (restrictPred : UserRow → Bool) (c : UserBulkChanges) :
    List UserRow × Nat :=
  (rows.map (fun r =>
     if selected.contains r.pk && restrictPred r then applyUserChanges r c
     else r),
   (rows.filter (fun r => selected.contains r.pk && restrictPred r)).length)

/-! ## Lemmas about the safe-redirect check -/

/-- An absolute URL never passes the empty-allow-list safety check. -/
theorem urlSafeChars_eq_false_of_absolute (l : List Char)
    (h : isAbsoluteChars l = true) : urlSafeChars l = false := by
  cases l with
  | nil => simp [isAbsoluteChars] at h
  | cons c rest =>
    by_cases hc : c == '/'
    · simp [isAbsoluteChars, hc] at h
      simp [urlSafeChars, hc, h]
    · simp [isAbsoluteChars, hc] at h
      simp [urlSafeChars, hc, h]

/-- A relative path always passes the empty-allow-list safety check. -/
theorem urlSafeChars_eq_true_of_relative (l : List Char)
    (h : isRelativeChars l = true) : urlSafeChars l = true := by
  cases l with
  | nil => simp [isRelativeChars] at h
  | cons c rest =>
    simp [isRelativeChars] at h
    simp [urlSafeChars, h.1, h.2]

/-- Only a nonempty string can pass the safety check. -/
theorem ne_empty_of_urlSafe (u : String)
    (h : url_has_allowed_host_and_scheme u = true) : u ≠ "" := by
  intro he
  subst he
  simp [url_has_allowed_host_and_scheme, urlSafeChars] at h

/-! ## Claim theorems -/

/-- C1: for every caller-supplied next string at login, an absolute URL to
a foreign host is replaced by the default landing page (reverse home), a
relative path is kept verbatim, and an absent next falls back to the
configured LOGIN_REDIRECT_URL (assumed safely configured). -/
theorem login_redirect_next_safety (s : Settings)
    (hdef : url_has_allowed_host_and_scheme s.LOGIN_REDIRECT_URL = true) :
    (∀ u, isAbsoluteUrl u = true → redirect_to_next (some u) s = s.homeUrl) ∧
    (∀ p, isRelativePath p = true → redirect_to_next (some p) s = p) ∧
    redirect_to_next none s = s.LOGIN_REDIRECT_URL := by
  refine ⟨?_, ?_, ?_⟩
  · intro u hu
    have hsafe : url_has_allowed_host_and_scheme u = false :=
      urlSafeChars_eq_false_of_absolute u.data hu
    simp [redirect_to_next, hsafe]
  · intro p hp
    have hsafe : url_has_allowed_host_and_scheme p = true :=
      urlSafeChars_eq_true_of_relative p.data hp
    have hne : p ≠ "" := ne_empty_of_urlSafe p hsafe
    simp [redirect_to_next, hsafe, hne]
  · have hne : s.LOGIN_REDIRECT_URL ≠ "" :=
      ne_empty_of_urlSafe _ hdef
    simp [redirect_to_next, hdef, hne]

/-- Witness for C1 at concrete inputs: the attacker URL of the spec lands
on the home page, /dashboard is kept, and an absent next yields the
configured default. -/
theorem login_redirect_next_safety_witness :
    redirect_to_next (some "https://evil.example/x") ⟨"/", "/lo", false, "/home"⟩ = "/home" ∧
    redirect_to_next (some "/dashboard") ⟨"/", "/lo", false, "/home"⟩ = "/dashboard" ∧
    redirect_to_next none ⟨"/", "/lo", false, "/home"⟩ = "/" := by
  have h := login_redirect_next_safety ⟨"/", "/lo", false, "/home"⟩ (by decide)
  exact ⟨h.1 _ (by decide), h.2.1 _ (by decide), h.2.2⟩

/-- C10: a GET on the login endpoint by an authenticated requester never
renders the login form; it redirects through the same redirect_to_next
used for a fresh POST login, so the same safety check and fallback
apply. -/
theorem authenticated_login_get_redirects (nxt : Option String) (s : Settings)
    (st : AuthState) (cfg : Config) (user now : Nat) :
    (login_get true nxt s = .redirect (redirect_to_next nxt s)) ∧
    (∀ t, login_get true nxt s ≠ .render t) ∧
    (login_get true nxt s = (login_post st s cfg true user now nxt).2) := by
  refine ⟨rfl, ?_, ?_⟩
  · intro t h
    simp [login_get] at h
  · simp [login_get, login_post]

/-- Witness for C10 at a concrete input: an authenticated GET with
next=/dashboard is answered by the redirect to /dashboard. -/
theorem authenticated_login_get_redirects_witness :
    login_get true (some "/dashboard") ⟨"/", "/lo", false, "/h"⟩ =
      .redirect "/dashboard" := by
  have h := authenticated_login_get_redirects (some "/dashboard")
    ⟨"/", "/lo", false, "/h"⟩ ⟨fun _ => none, fun _ => none, none⟩
    ⟨false, []⟩ 1 2
  exact h.1.trans (by decide)

/-- C6: under MAINTENANCE_MODE a successful login leaves every last-login
timestamp unchanged, while the session is still marked authenticated, a
UserConfig still exists for the user, and the response is still the
redirect through redirect_to_next. -/
theorem maintenance_mode_preserves_last_login (st : AuthState) (s : Settings)
    (dp : List (String × String)) (user now : Nat) (nxt : Option String) :
    (∀ u, (login_post st s ⟨true, dp⟩ true user now nxt).1.lastLogin u =
      st.lastLogin u) ∧
    ((login_post st s ⟨true, dp⟩ true user now nxt).1.sessionUser = some user) ∧
    (((login_post st s ⟨true, dp⟩ true user now nxt).1.userConfig user).isSome) ∧
    ((login_post st s ⟨true, dp⟩ true user now nxt).2 =
      .redirect (redirect_to_next nxt s)) := by
  simp only [login_post]
  by_cases h : (st.userConfig user).isSome <;> simp [h]

/-- C7: a successful login ensures a UserConfig row for the user — created
seeded with DEFAULT_USER_PREFERENCES when absent, left unchanged when
already present. -/
theorem login_ensures_userconfig (st : AuthState) (s : Settings) (cfg : Config)
    (user now : Nat) (nxt : Option String) :
    (((login_post st s cfg true user now nxt).1.userConfig user).isSome) ∧
    (st.userConfig user = none →
      (login_post st s cfg true user now nxt).1.userConfig user =
        some cfg.DEFAULT_USER_PREFERENCES) ∧
    (∀ d, st.userConfig user = some d →
      (login_post st s cfg true user now nxt).1.userConfig user = some d) := by
  simp only [login_post]
  by_cases h : (st.userConfig user).isSome
  · refine ⟨by simp [h], ?_, ?_⟩
    · intro hnone
      rw [hnone] at h
      simp at h
    · intro d hd
      simp [h, hd]
  · refine ⟨by simp [h], ?_, ?_⟩
    · intro _
      simp [h]
    · intro d hd
      rw [hd] at h
      simp at h

/-- Witness for C7 at concrete inputs: an absent row is created with the
default preferences, an existing row is kept as stored. -/
theorem login_ensures_userconfig_witness :
    (login_post ⟨fun _ => none, fun _ => none, none⟩ ⟨"/", "/lo", false, "/h"⟩
        ⟨false, [("ui", "dark")]⟩ true 5 9 none).1.userConfig 5 =
      some [("ui", "dark")] ∧
    (login_post ⟨fun _ => none, fun _ => some [("pg", "50")], none⟩
        ⟨"/", "/lo", false, "/h"⟩ ⟨false, [("ui", "dark")]⟩ true 5 9
        none).1.userConfig 5 = some [("pg", "50")] := by
  constructor
  · exact (login_ensures_userconfig ⟨fun _ => none, fun _ => none, none⟩
      ⟨"/", "/lo", false, "/h"⟩ ⟨false, [("ui", "dark")]⟩ 5 9 none).2.1 rfl
  · exact (login_ensures_userconfig ⟨fun _ => none, fun _ => some [("pg", "50")], none⟩
      ⟨"/", "/lo", false, "/h"⟩ ⟨false, [("ui", "dark")]⟩ 5 9 none).2.2 _ rfl

/-- C8: every logout request succeeds — the session identity is cleared,
the session_key cookie is deleted, the response redirects to
LOGOUT_REDIRECT_URL, and the response does not depend on the prior
session state (so an already-invalid session behaves identically). -/
theorem logout_always_succeeds (st : AuthState) (s : Settings) :
    ((logout_get st s).1.sessionUser = none) ∧
    ((logout_get st s).2.redirectUrl = s.LOGOUT_REDIRECT_URL) ∧
    ((logout_get st s).2.deletedCookie = "session_key") ∧
    (∀ st2 : AuthState, (logout_get st s).2 = (logout_get st2 s).2) :=
  ⟨rfl, rfl, rfl, fun _ => rfl⟩

/-- Saving a token touches no other row: every row of the resulting store
was already stored or is the saved token itself. -/
theorem mem_saveToken (st : TokenStore) (t : Token) :
    ∀ x ∈ (saveToken st t).tokens, x ∈ st.tokens ∨ x = t := by
  intro x hx
  unfold saveToken at hx
  by_cases h : st.tokens.any (fun y => y.pk == t.pk) = true
  · simp only [h, if_true] at hx
    rw [List.mem_map] at hx
    obtain ⟨a, ha, hax⟩ := hx
    by_cases hc : (a.pk == t.pk) = true
    · right
      rw [← hax]
      simp [hc]
    · left
      rw [← hax]
      simp only [hc, if_false]
      simpa [hc] using ha
  · simp only [h, if_false] at hx
    rcases List.mem_append.mp hx with hx | hx
    · exact Or.inl hx
    · exact Or.inr (List.mem_singleton.mp hx)

/-- C2: with ALLOW_TOKEN_RETRIEVAL off, a valid creation (no pk) answers
with the plaintext secret, and every pk-scoped edit, the edit form, the
token list, and both delete handlers answer without any plaintext
secret. -/
theorem token_secret_shown_only_at_creation (st : TokenStore) (requester : Nat)
    (d : TokenFormData) (newKey : String) (newPk : Nat) (aa : Bool)
    (lr lo home : String) :
    (exposedKey (token_edit_post st requester none d true newKey newPk aa
        ⟨lr, lo, false, home⟩).2 = some newKey) ∧
    (∀ pk fv d2 nk2 np2 aa2 s2, exposedKey
      (token_edit_post st requester (some pk) d2 fv nk2 np2 aa2 s2).2 = none) ∧
    (∀ pk, exposedKey (token_edit_get st requester (some pk)) = none) ∧
    (exposedKey (token_list_view st requester) = none) ∧
    (∀ pk cv, exposedKey (token_delete_post st requester pk cv).2 = none) ∧
    (∀ pk, exposedKey (token_delete_get st requester pk) = none) := by
  refine ⟨?_, ?_, ?_, rfl, ?_, ?_⟩
  · simp [token_edit_post, applyTokenForm, exposedKey]
  · intro pk fv d2 nk2 np2 aa2 s2
    cases hf : findUserToken st requester pk with
    | none => simp [token_edit_post, hf, exposedKey]
    | some t =>
      by_cases hv : fv
      · by_cases ha : aa2 <;> simp [token_edit_post, hf, hv, ha, exposedKey]
      · simp [token_edit_post, hf, hv, exposedKey]
  · intro pk
    cases hf : findUserToken st requester pk with
    | none => simp [token_edit_get, hf, exposedKey]
    | some t => simp [token_edit_get, hf, exposedKey]
  · intro pk cv
    cases hf : findUserToken st requester pk with
    | none => simp [token_delete_post, hf, exposedKey]
    | some t =>
      by_cases hc : cv <;> simp [token_delete_post, hf, hc, exposedKey]
  · intro pk
    cases hf : findUserToken st requester pk with
    | none => simp [token_delete_get, hf, exposedKey]
    | some t => simp [token_delete_get, hf, exposedKey]

/-- C3: when user B addresses a token owned by a distinct user A, every
edit and delete handler answers not-found with the store untouched, and
the token list of B contains only tokens of B — never the token of A. -/
theorem token_ownership_enforced (st : TokenStore) (A B pk : Nat) (t : Token)
    (hmem : t ∈ st.tokens) (howner : t.user = A) (hne : A ≠ B)
    (huniq : ∀ t1 ∈ st.tokens, ∀ t2 ∈ st.tokens, t1.pk = t2.pk → t1 = t2)
    (hpk : t.pk = pk) :
    (∀ d fv nk np aa s,
      token_edit_post st B (some pk) d fv nk np aa s = (st, .notFound)) ∧
    (token_edit_get st B (some pk) = .notFound) ∧
    (∀ cv, token_delete_post st B pk cv = (st, .notFound)) ∧
    (token_delete_get st B pk = .notFound) ∧
    (∀ x ∈ token_list st B, x.user = B) ∧
    (t ∉ token_list st B) := by
  have hfind : findUserToken st B pk = none := by
    unfold findUserToken
    rw [List.find?_eq_none]
    intro x hx hpx
    simp only [Bool.and_eq_true, beq_iff_eq] at hpx
    have hx_eq : x = t := huniq x hx t hmem (by rw [hpx.2, hpk])
    apply hne
    rw [← howner, ← hx_eq, hpx.1]
  refine ⟨?_, ?_, ?_, ?_, ?_, ?_⟩
  · intro d fv nk np aa s
    simp [token_edit_post, hfind]
  · simp [token_edit_get, hfind]
  · intro cv
    simp [token_delete_post, hfind]
  · simp [token_delete_get, hfind]
  · intro x hx
    have := (List.mem_filter.mp hx).2
    simpa using this
  · intro hx
    have := (List.mem_filter.mp hx).2
    simp only [beq_iff_eq] at this
    exact hne (howner ▸ this)

/-- Witness for C3 at concrete inputs: a token of user 10 is invisible to
user 20, whose edit and delete requests on it answer not-found without
touching the store. -/
theorem token_ownership_enforced_witness :
    (token_edit_post ⟨[⟨1, 10, "secret", false, ""⟩]⟩ 20 (some 1)
      ⟨none, false, ""⟩ true "nk" 7 false ⟨"/", "/lo", false, "/h"⟩ =
      (⟨[⟨1, 10, "secret", false, ""⟩]⟩, .notFound)) ∧
    (token_delete_post ⟨[⟨1, 10, "secret", false, ""⟩]⟩ 20 1 true =
      (⟨[⟨1, 10, "secret", false, ""⟩]⟩, .notFound)) ∧
    ((⟨1, 10, "secret", false, ""⟩ : Token) ∉
      token_list ⟨[⟨1, 10, "secret", false, ""⟩]⟩ 20) := by
  have h := token_ownership_enforced ⟨[⟨1, 10, "secret", false, ""⟩]⟩ 10 20 1
    ⟨1, 10, "secret", false, ""⟩ (by decide) (by decide) (by decide)
    (by decide) (by decide)
  exact ⟨h.1 ⟨none, false, ""⟩ true "nk" 7 false ⟨"/", "/lo", false, "/h"⟩,
    h.2.2.1 true, h.2.2.2.2.2⟩

/-- C9: every row stored by the token edit view was either already stored
before the request or carries the requester as its owner, regardless of
any owner the submitted form data names. -/
theorem token_save_forces_owner (st : TokenStore) (requester : Nat)
    (pk? : Option Nat) (d : TokenFormData) (fv : Bool) (newKey : String)
    (newPk : Nat) (aa : Bool) (s : Settings) :
    ∀ tk ∈ (token_edit_post st requester pk? d fv newKey newPk aa s).1.tokens,
      tk ∈ st.tokens ∨ tk.user = requester := by
  intro tk htk
  cases pk? with
  | some pk =>
    cases hf : findUserToken st requester pk with
    | none =>
      simp only [token_edit_post, hf] at htk
      exact Or.inl htk
    | some t =>
      by_cases hv : fv
      · by_cases ha : aa <;>
        · simp only [token_edit_post, hf, hv, ha, if_true, if_false] at htk
          rcases mem_saveToken _ _ tk htk with h | h
          · exact Or.inl h
          · exact Or.inr (by rw [h])
      · simp only [token_edit_post, hf, hv, if_false] at htk
        exact Or.inl htk
  | none =>
    by_cases hv : fv
    · simp only [token_edit_post, hv, if_true] at htk
      split at htk <;> (try split at htk) <;>
      · rcases mem_saveToken _ _ tk htk with h | h
        · exact Or.inl h
        · exact Or.inr (by rw [h])
    · simp only [token_edit_post, hv, if_false] at htk
      exact Or.inl htk

/-- Witness for C9 at a concrete input: a creation whose form data names
user 3 as owner still stores the token under requester 9. -/
theorem token_save_forces_owner_witness :
    (⟨7, 9, "k", true, "d"⟩ : Token) ∈ (⟨[]⟩ : TokenStore).tokens ∨
    (⟨7, 9, "k", true, "d"⟩ : Token).user = 9 :=
  token_save_forces_owner ⟨[]⟩ 9 none ⟨some 3, true, "d"⟩ true "k" 7 false
    ⟨"/", "/lo", false, "/h"⟩ ⟨7, 9, "k", true, "d"⟩ (by decide)

/-- C4: for a non-superuser principal, when no stored row is an enabled
ObjectPermission matching the principal (or its groups) together with
the action and object type, is_allowed denies and the restrict predicate
admits no instance — the resolver fails closed on an empty match set. -/
theorem resolver_fails_closed (perms : List ObjectPermission) (p : Principal)
    (action objType : String)
    (hsup : p.is_superuser = false)
    (hnone : ∀ perm ∈ perms,
      ¬(perm.enabled = true ∧ matchesPrincipal perm p = true ∧
        perm.actions.contains action = true ∧
        perm.object_types.contains objType = true)) :
    is_allowed perms p action objType = false ∧
    (∀ inst, restrict perms p action objType inst = false) := by
  have hmatch : matchingPermissions perms p action objType = [] := by
    unfold matchingPermissions
    rw [List.filter_eq_nil_iff]
    intro perm hperm hb
    simp only [Bool.and_eq_true] at hb
    exact hnone perm hperm ⟨hb.1.1.1, hb.1.1.2, hb.1.2, hb.2⟩
  constructor
  · simp [is_allowed, hsup, hmatch]
  · intro inst
    simp [restrict, hsup, hmatch]

/-- Witness for C4 at a concrete input: a single disabled permission row
naming the principal grants nothing. -/
theorem resolver_fails_closed_witness :
    is_allowed [⟨false, [3], [], ["view"], ["dcim.device"], none⟩]
      ⟨3, [], false⟩ "view" "dcim.device" = false ∧
    restrict [⟨false, [3], [], ["view"], ["dcim.device"], none⟩]
      ⟨3, [], false⟩ "view" "dcim.device" 0 = false := by
  have h := resolver_fails_closed
    [⟨false, [3], [], ["view"], ["dcim.device"], none⟩]
    ⟨3, [], false⟩ "view" "dcim.device" rfl
    (by intro perm hperm hb
        simp only [List.mem_singleton] at hperm
        rw [hperm] at hb
        simp at hb)
  exact ⟨h.1, h.2 0⟩

/-- C5: the bulk-edit driver only writes rows admitted by the restrict
predicate — a row the predicate rejects keeps its stored value at its
position — and a request whose selected rows are all unauthorized leaves
the table identical and reports zero rows affected. -/
theorem bulk_edit_respects_restrict (rows : List UserRow)
    (selected : List Nat) (pred : UserRow → Bool) (c : UserBulkChanges) :
    (∀ (i : Nat) (r : UserRow), rows[i]? = some r → pred r = false →
      (bulk_edit_users rows selected pred c).1[i]? = some r) ∧
    ((∀ r ∈ rows, selected.contains r.pk = true → pred r = false) →
      (bulk_edit_users rows selected pred c).1 = rows ∧
      (bulk_edit_users rows selected pred c).2 = 0) := by
  constructor
  · intro i r hir hpr
    simp only [bulk_edit_users]
    rw [List.getElem?_map, hir]
    simp [hpr]
  · intro hall
    constructor
    · simp only [bulk_edit_users]
      have hid : ∀ a ∈ rows,
          (if selected.contains a.pk && pred a then applyUserChanges a c
           else a) = a := by
        intro a ha
        by_cases hsel : selected.contains a.pk = true
        · have hpa : pred a = false := hall a ha hsel
          simp [hsel, hpa]
        · simp only [Bool.not_eq_true] at hsel
          rw [hsel]
          simp
      calc rows.map (fun a =>
            if selected.contains a.pk && pred a then applyUserChanges a c
            else a)
          = rows.map id := List.map_congr_left hid
        _ = rows := List.map_id rows
    · simp only [bulk_edit_users]
      rw [List.length_eq_zero, List.filter_eq_nil_iff]
      intro a ha hb
      simp only [Bool.and_eq_true] at hb
      have := hall a ha hb.1
      rw [this] at hb
      exact Bool.false_ne_true hb.2

/-- Witness for C5 at a concrete input: with a restrict predicate
admitting nothing, a selected row is untouched, the table is identical,
and zero rows are reported affected. -/
theorem bulk_edit_respects_restrict_witness :
    ((bulk_edit_users [⟨1, "a", "b", true, false, false⟩] [1] (fun _ => false)
        ⟨some "X", none, none, none, none⟩).1 =
      [⟨1, "a", "b", true, false, false⟩]) ∧
    ((bulk_edit_users [⟨1, "a", "b", true, false, false⟩] [1] (fun _ => false)
        ⟨some "X", none, none, none, none⟩).2 = 0) ∧
    ((bulk_edit_users [⟨1, "a", "b", true, false, false⟩] [1] (fun _ => false)
        ⟨some "X", none, none, none, none⟩).1[0]? =
      some ⟨1, "a", "b", true, false, false⟩) := by
  have h := bulk_edit_respects_restrict [⟨1, "a", "b", true, false, false⟩]
    [1] (fun _ => false) ⟨some "X", none, none, none, none⟩
  exact ⟨(h.2 (by decide)).1, (h.2 (by decide)).2, h.1 0 _ rfl rfl⟩

end Netbox
